import Mathlib

/-! Verification of the CUPS scheduler authorization core (scheduler/auth.c).

The embedding below translates the data model and the authorization
functions of auth.c into Lean: C byte strings become `List Char`, 32-bit
machine words become `Nat` reduced modulo 2^32 where byte order matters,
and the process globals consumed by the code (ServerName, DefaultAuthType,
SystemGroups, the OS user/group databases, the passwd.md5 digest file, the
network-interface registry, the PAM backend and the MD5 primitives) are
gathered into an explicit environment record `Env`.  Fallible lookups
return `Option`.  Each definition carries the line numbers of the source
code it embeds. -/

/-! ## Bytes and strings -/

/-- ASCII lower-casing of one byte, as used by strcasecmp/strncasecmp. -/
def lowerC (c : Char) : Char :=
  if 'A' ≤ c ∧ c ≤ 'Z' then Char.ofNat (c.toNat + 32) else c

/-- strcasecmp(a, b) == 0: the two byte strings are equal up to ASCII case. -/
def strCaseEq (a b : List Char) : Bool :=
  decide (a.map lowerC = b.map lowerC)

/-- String literals appearing in auth.c. -/
def localhostS : List Char := "localhost".data

def rootS : List Char := "root".data

def printersS : List Char := "/printers/".data

def classesS : List Char := "/classes/".data

def ppdS : List Char := ".ppd".data

def localS : List Char := "Local".data

def atOwnerS : List Char := "@OWNER".data

def atSystemS : List Char := "@SYSTEM".data

def ownerGroupS : List Char := "OWNER".data

def starS : List Char := "*".data

def cupsRealmS : List Char := "CUPS".data

/-! ## 32-bit words and addresses -/

/-- Byte swap of a 32-bit word.  `ntohl`/`htonl` on the little-endian hosts
the scheduler is built for; both names are kept as in the source. -/
def byteswap32 (x : Nat) : Nat :=
  let y := x % 4294967296
  (y % 256) * 16777216 + (y / 256 % 256) * 65536 +
    (y / 65536 % 256) * 256 + (y / 16777216)

def ntohl (x : Nat) : Nat := byteswap32 x

def htonl (x : Nat) : Nat := byteswap32 x

/-- Four 32-bit words, as the `unsigned address[4]`/`netmask[4]` arrays of
auth.c (IPv4 lives in the low word `w3`, the upper three words zero). -/
structure Addr4 where
  w0 : Nat
  w1 : Nat
  w2 : Nat
  w3 : Nat
  deriving DecidableEq

/-! ## Data model: masks, locations, enumerations -/

/-- cupsd_authmask_t: a tagged union over the interface, host/domain-name
and IP-network variants (auth.c `AUTH_INTERFACE`/`AUTH_NAME`/`AUTH_IP`).
The stored `length` field of the name variants always equals the string
length (set at cupsdAllowHost/cupsdDenyHost), so it is computed here. -/
inductive AuthMask where
  | AUTH_INTERFACE (name : List Char)
  | AUTH_NAME (name : List Char)
  | AUTH_IP (address : Addr4) (netmask : Addr4)
  deriving DecidableEq

/-- The AUTH_ALLOW/AUTH_DENY constants, used both as the per-location
`order_type` and as the host-filter verdict variable `auth`. -/
inductive AuthVerdict where
  | AUTH_ALLOW
  | AUTH_DENY
  deriving DecidableEq

/-- AUTH_NONE/AUTH_BASIC/AUTH_DIGEST/AUTH_BASICDIGEST (location `type`). -/
inductive AuthType where
  | AUTH_NONE
  | AUTH_BASIC
  | AUTH_DIGEST
  | AUTH_BASICDIGEST
  deriving DecidableEq

/-- AUTH_ANON/AUTH_USER/AUTH_GROUP (location `level`). -/
inductive AuthLevel where
  | AUTH_ANON
  | AUTH_USER
  | AUTH_GROUP
  deriving DecidableEq

/-- AUTH_SATISFY_ALL/AUTH_SATISFY_ANY (location `satisfy`). -/
inductive Satisfy where
  | AUTH_SATISFY_ALL
  | AUTH_SATISFY_ANY
  deriving DecidableEq

/-- Modelled from the spec: the verb-limit bit constants come from the
scheduler header (auth.h), which is not part of the provided source.  The
spec fixes a bitset over OPTIONS/GET/HEAD/POST/PUT/DELETE/TRACE with ALL
matching any verb and a separate IPP bit; the values below follow the
usual CUPS assignment.  No claim depends on the particular values, only on
the bitmask discipline visible in auth.c. -/
def AUTH_LIMIT_DELETE : Nat := 1

def AUTH_LIMIT_GET : Nat := 2

def AUTH_LIMIT_HEAD : Nat := 4

def AUTH_LIMIT_OPTIONS : Nat := 8

def AUTH_LIMIT_POST : Nat := 16

def AUTH_LIMIT_PUT : Nat := 32

def AUTH_LIMIT_TRACE : Nat := 64

def AUTH_LIMIT_ALL : Nat := 127

def AUTH_LIMIT_IPP : Nat := 128

/-- Modelled from the spec: HTTP_ENCRYPT_REQUIRED from the cups http.h
header (not in the provided source); `encryption` is kept as a Nat and the
code only compares it with `>= HTTP_ENCRYPT_REQUIRED` (auth.c:1177). -/
def HTTP_ENCRYPT_REQUIRED : Nat := 2

/-- http_state_t values, in the order of the `limits[]` and `states[]`
tables of auth.c (lines 818-834 and 1026-1042). -/
inductive HttpState where
  | HTTP_WAITING
  | HTTP_OPTIONS
  | HTTP_GET
  | HTTP_GET_SEND
  | HTTP_HEAD
  | HTTP_POST
  | HTTP_POST_RECV
  | HTTP_POST_SEND
  | HTTP_PUT
  | HTTP_PUT_RECV
  | HTTP_DELETE
  | HTTP_TRACE
  | HTTP_CLOSE
  | HTTP_STATUS
  deriving DecidableEq

/-- The `limits[]` table of cupsdFindBest (auth.c:818-834). -/
def limits : HttpState → Nat
  | .HTTP_WAITING => AUTH_LIMIT_ALL
  | .HTTP_OPTIONS => AUTH_LIMIT_OPTIONS
  | .HTTP_GET => AUTH_LIMIT_GET
  | .HTTP_GET_SEND => AUTH_LIMIT_GET
  | .HTTP_HEAD => AUTH_LIMIT_HEAD
  | .HTTP_POST => AUTH_LIMIT_POST
  | .HTTP_POST_RECV => AUTH_LIMIT_POST
  | .HTTP_POST_SEND => AUTH_LIMIT_POST
  | .HTTP_PUT => AUTH_LIMIT_PUT
  | .HTTP_PUT_RECV => AUTH_LIMIT_PUT
  | .HTTP_DELETE => AUTH_LIMIT_DELETE
  | .HTTP_TRACE => AUTH_LIMIT_TRACE
  | .HTTP_CLOSE => AUTH_LIMIT_ALL
  | .HTTP_STATUS => AUTH_LIMIT_ALL

/-- The `states[]` method-name table of cupsdIsAuthorized (auth.c:1026-1042),
used as the method string of the final Digest hash. -/
def stateString : HttpState → List Char
  | .HTTP_WAITING => "WAITING".data
  | .HTTP_OPTIONS => "OPTIONS".data
  | .HTTP_GET => "GET".data
  | .HTTP_GET_SEND => "GET".data
  | .HTTP_HEAD => "HEAD".data
  | .HTTP_POST => "POST".data
  | .HTTP_POST_RECV => "POST".data
  | .HTTP_POST_SEND => "POST".data
  | .HTTP_PUT => "PUT".data
  | .HTTP_PUT_RECV => "PUT".data
  | .HTTP_DELETE => "DELETE".data
  | .HTTP_TRACE => "TRACE".data
  | .HTTP_CLOSE => "CLOSE".data
  | .HTTP_STATUS => "STATUS".data

/-- The HTTP status codes returned by cupsdIsAuthorized. -/
inductive HttpStatus where
  | HTTP_OK
  | HTTP_UNAUTHORIZED
  | HTTP_FORBIDDEN
  | HTTP_UPGRADE_REQUIRED
  deriving DecidableEq

export HttpStatus (HTTP_OK HTTP_UNAUTHORIZED HTTP_FORBIDDEN HTTP_UPGRADE_REQUIRED)

/-- cupsd_location_t (the fields read by the functions under proof).  The
stored `length` field always equals the byte length of `location`
(established at cupsdAddLocation, auth.c:136) and is computed here. -/
structure Location where
  location : List Char
  limit : Nat
  order_type : AuthVerdict
  type : AuthType
  level : AuthLevel
  satisfy : Satisfy
  encryption : Nat
  names : List (List Char)
  allow : List AuthMask
  deny : List AuthMask
  deriving DecidableEq

/-! ## Environment: process globals and collaborator interfaces -/

/-- struct group as consulted by cupsdCheckGroup. -/
structure GroupRec where
  gr_gid : Nat
  gr_mem : List (List Char)

/-- struct passwd (only the gid field is consulted). -/
structure PasswdRec where
  pw_gid : Nat
  deriving DecidableEq

/-- One well-formed record of the passwd.md5 digest file.  The file parser
at cupsdGetMD5Passwd (auth.c:963-969) splits each line at colons into
user, group and digest fields of at most 32 bytes and skips lines that do
not match; the file is modelled as the list of records that parse.  A file
that cannot be opened behaves exactly like the empty list (both make every
lookup return NULL). -/
structure MD5Rec where
  user : List Char
  group : List Char
  digest : List Char

/-- One record of the network-interface registry (cupsd_netif_t): local
flag, address family, and the v4/v6 address and mask words in network
byte order. -/
structure NetIF where
  is_local : Bool
  family_inet : Bool
  addr4 : Nat
  mask4 : Nat
  addr6 : Addr4
  mask6 : Addr4

/-- The process globals and collaborator interfaces consumed by auth.c:
ServerName, DefaultAuthType, SystemGroups/NumSystemGroups, getgrnam,
getpwnam, the parsed passwd.md5 file, the PAM backend (the pam_start/
pam_authenticate/pam_acct_mgmt sequence with the conversation callback
that supplies username and password, collapsed to its accept/reject
verdict), httpMD5Final and httpMD5, and the NetIF registry (the list of
interfaces as of the cupsdNetIFUpdate refresh, plus NetIFFind). -/
structure Env where
  serverName : List Char
  defaultAuthType : AuthType
  systemGroups : List (List Char)
  getgrnam : List Char → Option GroupRec
  getpwnam : List Char → Option PasswdRec
  passwdMD5 : List MD5Rec
  osAuth : List Char → List Char → Bool
  md5Final : List Char → List Char → List Char → List Char → List Char
  httpMD5 : List Char → List Char → List Char → List Char
  netifs : List NetIF
  netifFind : List Char → Option NetIF

/-! ## cupsdCheckAuth (auth.c:279-436) -/

/-- The interface comparison of cupsdCheckAuth: for the v4 family
`(netip4 & mask) == (addr & mask)` on the single word, for v6 the same
equation on all four words (auth.c:328-354). -/
def ifaceMatch (iface : NetIF) (netip4 n0 n1 n2 n3 : Nat) : Bool :=
  if iface.family_inet then
    decide (netip4 &&& iface.mask4 = iface.addr4 &&& iface.mask4)
  else
    decide (n0 &&& iface.mask6.w0 = iface.addr6.w0 &&& iface.mask6.w0) &&
    decide (n1 &&& iface.mask6.w1 = iface.addr6.w1 &&& iface.mask6.w1) &&
    decide (n2 &&& iface.mask6.w2 = iface.addr6.w2 &&& iface.mask6.w2) &&
    decide (n3 &&& iface.mask6.w3 = iface.addr6.w3 &&& iface.mask6.w3)

/-- One iteration of the cupsdCheckAuth loop: does the mask match the
peer `(ip, name)`?  (auth.c:295-429; `name_len` is the strlen the caller
passes). -/
def maskMatches (env : Env) (ip : Addr4) (name : List Char) (name_len : Nat) :
    AuthMask → Bool
  | .AUTH_INTERFACE ifname =>
      if ifname = starS then
        env.netifs.any fun iface =>
          iface.is_local &&
          ifaceMatch iface (htonl ip.w3) (htonl ip.w0) (htonl ip.w1)
            (htonl ip.w2) (htonl ip.w3)
      else
        match env.netifFind ifname with
        | some iface =>
            ifaceMatch iface (htonl ip.w3) (htonl ip.w0) (htonl ip.w1)
              (htonl ip.w2) (htonl ip.w3)
        | none => false
  | .AUTH_NAME n =>
      strCaseEq name n ||
      (decide (n.length ≤ name_len) && decide (n.head? = some '.') &&
       strCaseEq (name.drop (name_len - n.length)) n)
  | .AUTH_IP a m =>
      decide (ip.w0 &&& m.w0 = a.w0) && decide (ip.w1 &&& m.w1 = a.w1) &&
      decide (ip.w2 &&& m.w2 = a.w2) && decide (ip.w3 &&& m.w3 = a.w3)

/-- cupsdCheckAuth (auth.c:279-436): scan the masks, true on first match. -/
def cupsdCheckAuth (env : Env) (ip : Addr4) (name : List Char) (name_len : Nat) :
    List AuthMask → Bool
  | [] => false
  | m :: rest =>
      maskMatches env ip name name_len m ||
      cupsdCheckAuth env ip name name_len rest

/-! ## cupsdGetMD5Passwd (auth.c:941-992) and cupsdCheckGroup (auth.c:443-504) -/

/-- The `group == NULL || strcmp(group, tempgroup) == 0` test of
cupsdGetMD5Passwd (auth.c:972). -/
def md5GroupMatches (group : Option (List Char)) (g : List Char) : Bool :=
  match group with
  | none => true
  | some gname => decide (gname = g)

/-- The line scan of cupsdGetMD5Passwd: first record whose user matches
exactly and whose group matches exactly or is unconstrained. -/
def lookupMD5 (username : List Char) (group : Option (List Char)) :
    List MD5Rec → Option (List Char)
  | [] => none
  | r :: rest =>
      if r.user = username ∧ md5GroupMatches group r.group = true then some r.digest
      else lookupMD5 username group rest

/-- cupsdGetMD5Passwd (auth.c:941-992): the stored digest for
`(username, group?)`, or none when no line matches (or the file cannot be
opened, modelled as the empty record list). -/
def cupsdGetMD5Passwd (env : Env) (username : List Char)
    (group : Option (List Char)) : Option (List Char) :=
  lookupMD5 username group env.passwdMD5

/-- cupsdCheckGroup (auth.c:443-504): membership of `username` in
`groupname` via (1) the OS group member list, case-insensitively, (2) the
primary gid when a passwd entry was supplied and the group exists, (3) a
`(user, group)` record of the passwd.md5 file. -/
def cupsdCheckGroup (env : Env) (username : List Char) (user : Option PasswdRec)
    (groupname : List Char) : Bool :=
  match env.getgrnam groupname with
  | some group =>
      if group.gr_mem.any fun m => strCaseEq username m then true
      else if (match user with
               | some p => decide (group.gr_gid = p.pw_gid)
               | none => false) then true
      else (cupsdGetMD5Passwd env username (some groupname)).isSome
  | none => (cupsdGetMD5Passwd env username (some groupname)).isSome

/-! ## cupsdFindBest (auth.c:807-912) -/

/-- Does the (possibly stripped) URI start with "/printers/" or
"/classes/"?  (the strncmp pair tested at auth.c:845-846 and again at
auth.c:873). -/
def isQueuePath (p : List Char) : Bool :=
  decide (p.take 10 = printersS) || decide (p.take 9 = classesS)

/-- Does the URI end in ".ppd"?  (the strcmp at auth.c:854; the pointer
arithmetic presupposes a length of at least 4, which the queue prefix
guarantees at the call site). -/
def hasPpdSuffix (p : List Char) : Bool :=
  decide (4 ≤ p.length) && decide (p.drop (p.length - 4) = ppdS)

/-- The URI preprocessing of cupsdFindBest (auth.c:843-856): under a queue
prefix, drop a trailing ".ppd". -/
def stripPPD (p : List Char) : List Char :=
  if isQueuePath p && hasPpdSuffix p then p.take (p.length - 4) else p

/-- The per-location prefix comparison of the cupsdFindBest loop:
case-insensitive strncasecmp for queue URIs (auth.c:880), case-sensitive
strncmp otherwise (auth.c:895), each over `loc->length` bytes. -/
def prefCmpOk (uri : List Char) (loc : Location) : Bool :=
  if isQueuePath uri then strCaseEq (uri.take loc.location.length) loc.location
  else decide (uri.take loc.location.length = loc.location)

/-- The non-length conjuncts of the cupsdFindBest match condition
(auth.c:879-882 / 894-897): prefix comparison, absolute path, verb bit. -/
def locMatch (uri : List Char) (limit : Nat) (loc : Location) : Bool :=
  prefCmpOk uri loc && decide (loc.location.head? = some '/') &&
  decide (limit &&& loc.limit ≠ 0)

/-- The running best length (`bestlen`, 0 while no best exists). -/
def bestLen : Option Location → Nat
  | none => 0
  | some b => b.location.length

/-- The scan loop of cupsdFindBest (auth.c:868-903): keep the current
location whenever it matches and is strictly longer than the best so far. -/
def findLoop (uri : List Char) (limit : Nat) :
    List Location → Option Location → Option Location
  | [], best => best
  | loc :: rest, best =>
      if decide (bestLen best < loc.location.length) && locMatch uri limit loc then
        findLoop uri limit rest (some loc)
      else
        findLoop uri limit rest best

/-- cupsdFindBest (auth.c:807-912), over an explicit location table in
place of the Locations/NumLocations globals. -/
def cupsdFindBest (locations : List Location) (path : List Char)
    (state : HttpState) : Option Location :=
  findLoop (stripPPD path) (limits state) locations none

/-! ## cupsdIsAuthorized (auth.c:999-1601) -/

/-- The peer address variants of `con->http.hostaddr` (sa_family plus the
address payload, in network byte order). -/
inductive HostAddr where
  | ipv4 (s_addr : Nat)
  | ipv6 (s0 s1 s2 s3 : Nat)
  | other

/-- The request context consumed by cupsdIsAuthorized: con->uri, con->best,
con->http.hostname, con->http.hostaddr, con->username, con->password, the
Authorization header field, the nonce subfield extracted from it by
httpGetSubField (none when absent), con->http.tls, con->http.state, and
whether the IPP payload carries a requesting-user-name attribute. -/
structure Client where
  uri : List Char
  best : Option Location
  hostname : List Char
  hostaddr : HostAddr
  username : List Char
  password : List Char
  authHeader : List Char
  nonce : Option (List Char)
  tls : Bool
  state : HttpState
  requestingUserName : Bool

/-- The address normalization of cupsdIsAuthorized (auth.c:1090-1116):
v6 becomes the four ntohl-converted words, v4 goes in the low word, an
unknown family becomes zeros. -/
def normAddress : HostAddr → Addr4
  | .ipv6 s0 s1 s2 s3 => ⟨ntohl s0, ntohl s1, ntohl s2, ntohl s3⟩
  | .ipv4 s => ⟨0, 0, 0, ntohl s⟩
  | .other => ⟨0, 0, 0, 0⟩

/-- The host/address admission filter of cupsdIsAuthorized
(auth.c:1120-1164): localhost is always allowed; otherwise the allow and
deny mask lists are applied in the order selected by `order_type`, the
last assignment winning (the `let` chain mirrors the C assignments). -/
def hostAuth (env : Env) (best : Location) (address : Addr4)
    (hostname : List Char) : AuthVerdict :=
  if strCaseEq hostname localhostS then .AUTH_ALLOW
  else
    match best.order_type with
    | .AUTH_ALLOW =>
        let a := AuthVerdict.AUTH_ALLOW
        let a := if cupsdCheckAuth env address hostname hostname.length best.deny
                 then AuthVerdict.AUTH_DENY else a
        let a := if cupsdCheckAuth env address hostname hostname.length best.allow
                 then AuthVerdict.AUTH_ALLOW else a
        a
    | .AUTH_DENY =>
        let a := AuthVerdict.AUTH_DENY
        let a := if cupsdCheckAuth env address hostname hostname.length best.allow
                 then AuthVerdict.AUTH_ALLOW else a
        let a := if cupsdCheckAuth env address hostname hostname.length best.deny
                 then AuthVerdict.AUTH_DENY else a
        a

/-- The `best->type != AUTH_NONE ? best->type : DefaultAuthType` scheme
selection (auth.c:1247). -/
def effectiveType (env : Env) (best : Location) : AuthType :=
  if best.type = .AUTH_NONE then env.defaultAuthType else best.type

/-- The inner @SYSTEM expansion of the Digest/BasicDigest password
resolution (auth.c:1418-1426): the first system group with a digest entry
for the user. -/
def firstSystemMD5 (env : Env) (username : List Char) :
    List (List Char) → Option (List Char)
  | [] => none
  | g :: rest =>
      match cupsdGetMD5Passwd env username (some g) with
      | some m => some m
      | none => firstSystemMD5 env username rest

/-- One name of the group-level digest resolution scan (auth.c:1416-1429). -/
def md5ForName (env : Env) (username name : List Char) : Option (List Char) :=
  if strCaseEq name atSystemS then firstSystemMD5 env username env.systemGroups
  else cupsdGetMD5Passwd env username (some name)

/-- The outer scan over the location names (auth.c:1416-1432): first name
that yields a stored digest. -/
def resolveNamesMD5 (env : Env) (username : List Char) :
    List (List Char) → Option (List Char)
  | [] => none
  | n :: rest =>
      match md5ForName env username n with
      | some m => some m
      | none => resolveNamesMD5 env username rest

/-- The stored-digest resolution shared by the Digest and BasicDigest
branches (auth.c:1412-1435 and 1459-1482): scan the names when the
location is group-level and has names, otherwise an unconstrained lookup. -/
def digestMD5 (env : Env) (best : Location) (username : List Char) :
    Option (List Char) :=
  if best.names ≠ [] ∧ best.level = .AUTH_GROUP then
    resolveNamesMD5 env username best.names
  else cupsdGetMD5Passwd env username none

/-- The password verification switch of cupsdIsAuthorized
(auth.c:1247-1500), entered with a non-empty password.  `none` is the
UNAUTHORIZED outcome; `some pw` is success carrying the passwd entry that
the later group checks receive (looked up for Basic, NULL otherwise).
Basic delegates to the PAM backend oracle; Digest requires the nonce
subfield to equal the peer hostname byte-for-byte (auth.c:1394-1408),
resolves the stored digest and compares the final MD5 with the response;
BasicDigest compares the stored digest with MD5(user, "CUPS", password);
an effective type of NONE falls through the switch without a check. -/
def checkPassword (env : Env) (con : Client) (best : Location) :
    Option (Option PasswdRec) :=
  match effectiveType env best with
  | .AUTH_BASIC =>
      let pw := env.getpwnam con.username
      if env.osAuth con.username con.password then some pw else none
  | .AUTH_DIGEST =>
      match con.nonce with
      | none => none
      | some nonce =>
          if con.hostname ≠ nonce then none
          else
            match digestMD5 env best con.username with
            | none => none
            | some md5 =>
                if env.md5Final nonce (stateString con.state) con.uri md5 =
                   con.password
                then some none else none
  | .AUTH_BASICDIGEST =>
      match digestMD5 env best con.username with
      | none => none
      | some md5 =>
          if md5 = env.httpMD5 con.username cupsRealmS con.password
          then some none else none
  | .AUTH_NONE => some none

/-- One name of the level-User principal scan (auth.c:1537-1555): the
if/else-if chain of a single loop iteration.  @OWNER accepts when an owner
was supplied and equals the username case-insensitively; @SYSTEM accepts
on membership in any system group; any other name starting with '@' is a
group lookup on the rest of the name; a plain name is compared with the
username case-insensitively. -/
def authUserAccept (env : Env) (username : List Char) (pw : Option PasswdRec)
    (owner : Option (List Char)) (name : List Char) : Bool :=
  let ownerOk := match owner with
                 | some o => strCaseEq username o
                 | none => false
  if strCaseEq name atOwnerS && ownerOk then true
  else if strCaseEq name atSystemS then
    env.systemGroups.any fun g => cupsdCheckGroup env username pw g
  else if decide (name.head? = some '@') then
    cupsdCheckGroup env username pw (name.drop 1)
  else strCaseEq username name

/-- One name of the Basic group scan (auth.c:1572-1585): @SYSTEM expands
to the system groups, any other name is passed to cupsdCheckGroup as is. -/
def authGroupAccept (env : Env) (username : List Char) (pw : Option PasswdRec)
    (name : List Char) : Bool :=
  if strCaseEq name atSystemS then
    env.systemGroups.any fun g => cupsdCheckGroup env username pw g
  else cupsdCheckGroup env username pw name

/-- The tail of cupsdIsAuthorized after password verification
(auth.c:1512-1601): root always passes; at level User an empty name list
accepts any authenticated user and otherwise the principal scan decides;
at other levels the group scan runs only when the location type is
exactly AUTH_BASIC, and everything else is accepted. -/
def postVerify (env : Env) (best : Location) (username : List Char)
    (owner : Option (List Char)) (pw : Option PasswdRec) : HttpStatus :=
  if username = rootS then HTTP_OK
  else if best.level = .AUTH_USER then
    if best.names = [] then HTTP_OK
    else if best.names.any (authUserAccept env username pw owner) then HTTP_OK
    else HTTP_UNAUTHORIZED
  else if best.type = .AUTH_BASIC then
    if best.names.any (authGroupAccept env username pw) then HTTP_OK
    else HTTP_UNAUTHORIZED
  else HTTP_OK

/-- The no-governing-location fallback of cupsdIsAuthorized
(auth.c:1067-1074): OK exactly for a byte-equal "localhost" or the
configured server name, FORBIDDEN otherwise. -/
def authorizedNoBest (env : Env) (con : Client) : HttpStatus :=
  if con.hostname = localhostS ∨ con.hostname = env.serverName then HTTP_OK
  else HTTP_FORBIDDEN

/-- The main pipeline of cupsdIsAuthorized for a governing location
(auth.c:1076-1601), in source order: host filter with satisfy ALL
short-circuit, encryption upgrade, anonymous access, unauthenticated IPP
identity, missing username, then either the local-certificate bypass
(localhost peer with an Authorization header starting "Local",
auth.c:1233-1234 negated around the password block) or the password check,
and finally the user/group step.  -/
def authorizedBest (env : Env) (con : Client) (best : Location)
    (owner : Option (List Char)) : HttpStatus :=
  if hostAuth env best (normAddress con.hostaddr) con.hostname = .AUTH_DENY ∧
     best.satisfy = .AUTH_SATISFY_ALL then HTTP_FORBIDDEN
  else if HTTP_ENCRYPT_REQUIRED ≤ best.encryption ∧ con.tls = false then
    HTTP_UPGRADE_REQUIRED
  else if best.level = .AUTH_ANON ∨ (best.type = .AUTH_NONE ∧ best.names = []) then
    HTTP_OK
  else if best.type = .AUTH_NONE ∧ best.limit = AUTH_LIMIT_IPP ∧
          con.requestingUserName = true then HTTP_OK
  else if con.username = [] then
    if best.satisfy = .AUTH_SATISFY_ALL ∨
       hostAuth env best (normAddress con.hostaddr) con.hostname = .AUTH_DENY
    then HTTP_UNAUTHORIZED else HTTP_OK
  else if strCaseEq con.hostname localhostS = true ∧ con.authHeader.take 5 = localS then
    postVerify env best con.username owner (env.getpwnam con.username)
  else if con.password = [] then HTTP_UNAUTHORIZED
  else
    match checkPassword env con best with
    | none => HTTP_UNAUTHORIZED
    | some pw => postVerify env best con.username owner pw

/-- cupsdIsAuthorized (auth.c:999-1601). -/
def cupsdIsAuthorized (env : Env) (con : Client) (owner : Option (List Char)) :
    HttpStatus :=
  match con.best with
  | none => authorizedNoBest env con
  | some best => authorizedBest env con best owner

/-! ## Concrete instances used by the claim witnesses and counterexamples -/

/-- A baseline environment: no OS users or groups, empty digest file, no
interfaces, every credential rejected by the backend. -/
def envBase : Env where
  serverName := "server.example.com".data
  defaultAuthType := .AUTH_BASIC
  systemGroups := []
  getgrnam := fun _ => none
  getpwnam := fun _ => none
  passwdMD5 := []
  osAuth := fun _ _ => false
  md5Final := fun _ _ _ _ => []
  httpMD5 := fun _ _ _ => []
  netifs := []
  netifFind := fun _ => none

/-- A location fixture with the given path and verb mask and no rules. -/
def locFix (p : List Char) (lim : Nat) : Location where
  location := p
  limit := lim
  order_type := .AUTH_ALLOW
  type := .AUTH_NONE
  level := .AUTH_ANON
  satisfy := .AUTH_SATISFY_ALL
  encryption := 0
  names := []
  allow := []
  deny := []

/-- The 10.0.0.0/8 network mask (host-order words, as cupsdAllowIP stores
them). -/
def maskNet10 : AuthMask :=
  .AUTH_IP ⟨0, 0, 0, 0x0a000000⟩ ⟨0xffffffff, 0xffffffff, 0xffffffff, 0xff000000⟩

/-- The 10.1.0.0/16 network mask. -/
def maskNet10x1 : AuthMask :=
  .AUTH_IP ⟨0, 0, 0, 0x0a010000⟩ ⟨0xffffffff, 0xffffffff, 0xffffffff, 0xffff0000⟩

/-- Allow [10.0.0.0/8], deny [10.1.0.0/16], Order Deny,Allow (the order the
spec calls AllowThenDeny). -/
def locC2ad : Location :=
  { locFix ("/".data) AUTH_LIMIT_ALL with
    order_type := .AUTH_ALLOW, allow := [maskNet10], deny := [maskNet10x1] }

/-- The same rule lists under Order Allow,Deny (spec: DenyThenAllow). -/
def locC2da : Location := { locC2ad with order_type := .AUTH_DENY }

/-- Peer 10.1.2.3 as the host filter receives it: the network-order s_addr
0x0302010a put through the address normalization. -/
def addrC2 : Addr4 := normAddress (.ipv4 0x0302010a)

def hostC2 : List Char := "host.example.com".data

/-- Location for the satisfy-Any part of C1: Basic scheme, user level, no
principal names, Order Allow,Deny with empty lists, so the host filter
denies every non-localhost peer. -/
def bestC1 : Location :=
  { locFix ("/admin/".data) AUTH_LIMIT_ALL with
    order_type := .AUTH_DENY, type := .AUTH_BASIC, level := .AUTH_USER,
    satisfy := .AUTH_SATISFY_ANY }

def envC1 : Env := { envBase with osAuth := fun _ _ => true }

def conC1 : Client where
  uri := "/admin/".data
  best := some bestC1
  hostname := "client.example.com".data
  hostaddr := .other
  username := "alice".data
  password := "secret".data
  authHeader := []
  nonce := none
  tls := false
  state := .HTTP_GET
  requestingUserName := false

def locC3a : Location := locFix ("/adm".data) AUTH_LIMIT_ALL

def locC3b : Location := locFix ("/admin/".data) AUTH_LIMIT_ALL

def tblC3 : List Location := [locC3a, locC3b]

def pathC3 : List Char := "/admin/x".data

/-- Digest location for the C4 witness. -/
def bestC4 : Location :=
  { locFix ("/printers/p1".data) AUTH_LIMIT_ALL with
    type := .AUTH_DIGEST, level := .AUTH_USER, names := [("staff".data)] }

/-- A Digest request whose nonce differs from the peer hostname. -/
def conC4 : Client where
  uri := "/printers/p1".data
  best := some bestC4
  hostname := "client.example.com".data
  hostaddr := .other
  username := "alice".data
  password := "response".data
  authHeader := "Digest x".data
  nonce := some ("evil.example.com".data)
  tls := false
  state := .HTTP_GET
  requestingUserName := false

/-- A request with no governing location from peer hostname "Localhost":
equal to "localhost" up to letter case only. -/
def conC5 : Client where
  uri := "/".data
  best := none
  hostname := "Localhost".data
  hostaddr := .other
  username := []
  password := []
  authHeader := []
  nonce := none
  tls := false
  state := .HTTP_GET
  requestingUserName := false

def conC5w : Client := { conC5 with hostname := "localhost".data }

/-- An environment whose only identity source is one digest-file record
(carol, admins): carol is not an OS user and admins is not an OS group. -/
def envC6 : Env :=
  { envBase with
    passwdMD5 := [⟨"carol".data, "admins".data,
                   "0123456789abcdef0123456789abcdef".data⟩] }

/-- Level-User location whose only principal is @OWNER. -/
def bestC7 : Location :=
  { locFix ("/admin/".data) AUTH_LIMIT_ALL with
    type := .AUTH_BASIC, level := .AUTH_USER, names := [atOwnerS] }

/-- An environment with an OS group literally named OWNER that lists alice,
and a backend accepting every password. -/
def envC7 : Env :=
  { envBase with
    getgrnam := fun g => if g = ownerGroupS then some ⟨50, [("alice".data)]⟩
                         else none,
    osAuth := fun _ _ => true }

/-- The same environment without the OWNER group. -/
def envC7w : Env := { envBase with osAuth := fun _ _ => true }

def conC7 : Client where
  uri := "/admin/".data
  best := some bestC7
  hostname := "client.example.com".data
  hostaddr := .other
  username := "alice".data
  password := "pw".data
  authHeader := []
  nonce := none
  tls := false
  state := .HTTP_GET
  requestingUserName := false

def bestC8 : Location :=
  { locFix ("/jobs/".data) AUTH_LIMIT_ALL with
    type := .AUTH_BASIC, level := .AUTH_USER, names := [atOwnerS] }

/-- An OS group named OWNER listing dave, accepting backend. -/
def envC8 : Env :=
  { envBase with
    getgrnam := fun g => if g = ownerGroupS then some ⟨70, [("dave".data)]⟩
                         else none,
    osAuth := fun _ _ => true }

def conC8 : Client where
  uri := "/jobs/".data
  best := some bestC8
  hostname := "client.example.com".data
  hostaddr := .other
  username := "dave".data
  password := "pw".data
  authHeader := []
  nonce := none
  tls := false
  state := .HTTP_GET
  requestingUserName := false

def locC9 : Location := locFix ("/printers/x.ppd".data) AUTH_LIMIT_ALL

def tblC9 : List Location := [locC9]

/-- A queue path whose name itself ends in ".ppd". -/
def pathC9x : List Char := "/printers/x.ppd.ppd".data

def locC9foo : Location := locFix ("/printers/foo".data) AUTH_LIMIT_ALL

def locC9adminPpd : Location := locFix ("/admin/foo.ppd".data) AUTH_LIMIT_ALL

def locC9admin : Location := locFix ("/admin/".data) AUTH_LIMIT_ALL

def tblC9w : List Location := [locC9foo]

def pathC9w : List Char := "/printers/foo.ppd".data

/-- Group-level Digest location for the C10 witness. -/
def bestC10 : Location :=
  { locFix ("/printers/p1".data) AUTH_LIMIT_ALL with
    type := .AUTH_DIGEST, level := .AUTH_GROUP, names := [("admins".data)] }

/-- Digest record for alice in admins, and a final-MD5 primitive whose
result the request reproduces. -/
def envC10 : Env :=
  { envBase with
    passwdMD5 := [⟨"alice".data, "admins".data,
                   "feedfacefeedfacefeedfacefeedface".data⟩],
    md5Final := fun _ _ _ _ => "finalresponse".data }

def conC10 : Client where
  uri := "/printers/p1".data
  best := some bestC10
  hostname := "client.example.com".data
  hostaddr := .other
  username := "alice".data
  password := "finalresponse".data
  authHeader := "Digest x".data
  nonce := some ("client.example.com".data)
  tls := false
  state := .HTTP_POST
  requestingUserName := false

/-! ## Helper lemmas -/

theorem strCaseEq_self (a : List Char) : strCaseEq a a = true := by
  simp [strCaseEq]

theorem isAuthorized_some (env : Env) (con : Client) (owner : Option (List Char))
    (best : Location) (hb : con.best = some best) :
    cupsdIsAuthorized env con owner = authorizedBest env con best owner := by
  simp [cupsdIsAuthorized, hb]

theorem isAuthorized_none (env : Env) (con : Client) (owner : Option (List Char))
    (hb : con.best = none) :
    cupsdIsAuthorized env con owner = authorizedNoBest env con := by
  simp [cupsdIsAuthorized, hb]

theorem authorizedBest_password (env : Env) (con : Client) (best : Location)
    (owner : Option (List Char))
    (h1 : ¬(hostAuth env best (normAddress con.hostaddr) con.hostname = .AUTH_DENY ∧
            best.satisfy = .AUTH_SATISFY_ALL))
    (h2 : ¬(HTTP_ENCRYPT_REQUIRED ≤ best.encryption ∧ con.tls = false))
    (h3 : ¬(best.level = .AUTH_ANON ∨ (best.type = .AUTH_NONE ∧ best.names = [])))
    (h4 : ¬(best.type = .AUTH_NONE ∧ best.limit = AUTH_LIMIT_IPP ∧
            con.requestingUserName = true))
    (h5 : ¬con.username = [])
    (h6 : ¬(strCaseEq con.hostname localhostS = true ∧ con.authHeader.take 5 = localS)) :
    authorizedBest env con best owner =
      if con.password = [] then HTTP_UNAUTHORIZED
      else
        match checkPassword env con best with
        | none => HTTP_UNAUTHORIZED
        | some pw => postVerify env best con.username owner pw := by
  unfold authorizedBest
  rw [if_neg h1, if_neg h2, if_neg h3, if_neg h4, if_neg h5, if_neg h6]

theorem hostAuth_deny_not_localhost (env : Env) (best : Location) (a : Addr4)
    (hn : List Char) (hd : hostAuth env best a hn = .AUTH_DENY) :
    strCaseEq hn localhostS = false := by
  by_contra h
  rw [Bool.not_eq_false] at h
  unfold hostAuth at hd
  rw [if_pos h] at hd
  cases hd

theorem locMatch_pos (uri : List Char) (limit : Nat) (loc : Location)
    (h : locMatch uri limit loc = true) : 0 < loc.location.length := by
  unfold locMatch at h
  rw [Bool.and_eq_true, Bool.and_eq_true] at h
  have hh := h.1.2
  rw [decide_eq_true_eq] at hh
  cases hl : loc.location with
  | nil => rw [hl] at hh; simp at hh
  | cons a tl => simp

theorem findLoop_inv (uri : List Char) (limit : Nat) :
    ∀ (tbl : List Location) (best : Option Location),
      (findLoop uri limit tbl best = best ∨
        ∃ l, findLoop uri limit tbl best = some l ∧ l ∈ tbl ∧
          locMatch uri limit l = true) ∧
      bestLen best ≤ bestLen (findLoop uri limit tbl best) ∧
      ∀ l2 ∈ tbl, locMatch uri limit l2 = true →
        l2.location.length ≤ bestLen (findLoop uri limit tbl best) := by
  intro tbl
  induction tbl with
  | nil => intro best; simp [findLoop]
  | cons loc rest ih =>
      intro best
      by_cases hc : (decide (bestLen best < loc.location.length) &&
          locMatch uri limit loc) = true
      · have hred : findLoop uri limit (loc :: rest) best =
            findLoop uri limit rest (some loc) := by
          simp [findLoop, hc]
        obtain ⟨ha, hb, hm⟩ := ih (some loc)
        rw [Bool.and_eq_true, decide_eq_true_eq] at hc
        refine ⟨?_, ?_, ?_⟩
        · rw [hred]
          rcases ha with ha | ⟨l, hl, hmem, hmat⟩
          · exact Or.inr ⟨loc, by rw [ha], List.mem_cons_self _ _, hc.2⟩
          · exact Or.inr ⟨l, hl, List.mem_cons_of_mem _ hmem, hmat⟩
        · rw [hred]
          exact le_trans (le_of_lt hc.1) (by simpa [bestLen] using hb)
        · intro l2 hl2 hmat2
          rw [hred]
          rcases List.mem_cons.mp hl2 with rfl | hl2m
          · exact le_trans (by simp [bestLen]) hb
          · exact hm l2 hl2m hmat2
      · have hred : findLoop uri limit (loc :: rest) best =
            findLoop uri limit rest best := by
          simp [findLoop, hc]
        obtain ⟨ha, hb, hm⟩ := ih best
        refine ⟨?_, ?_, ?_⟩
        · rw [hred]
          rcases ha with ha | ⟨l, hl, hmem, hmat⟩
          · exact Or.inl ha
          · exact Or.inr ⟨l, hl, List.mem_cons_of_mem _ hmem, hmat⟩
        · rw [hred]; exact hb
        · intro l2 hl2 hmat2
          rw [hred]
          rcases List.mem_cons.mp hl2 with rfl | hl2m
          · have hnlt : ¬ bestLen best < l2.location.length := by
              intro hlt
              exact hc (by rw [Bool.and_eq_true, decide_eq_true_eq]
                           exact ⟨hlt, hmat2⟩)
            exact le_trans (Nat.le_of_not_lt hnlt) hb
          · exact hm l2 hl2m hmat2

theorem locMatch_iff (uri : List Char) (limit : Nat) (loc : Location) :
    locMatch uri limit loc = true ↔
      prefCmpOk uri loc = true ∧ loc.location.head? = some '/' ∧
      limit &&& loc.limit ≠ 0 := by
  unfold locMatch
  rw [Bool.and_eq_true, Bool.and_eq_true, decide_eq_true_eq, decide_eq_true_eq]
  tauto

/-- C3: cupsdFindBest returns a Location of maximal location length among
those whose location prefix-matches the (possibly .ppd-stripped) request
path, begins with a slash, and whose verb mask intersects the request verb
bit, and returns none exactly when no location qualifies; in particular,
for two Locations p1 strictly shorter than p2, both prefix-matching the
stripped path and starting with a slash, the result is p2 exactly when the
verb bit meets the mask of p2, and is p1 when only the mask of p1 meets
the verb bit. -/
theorem findBest_longest_match :
    ∀ (tbl : List Location) (path : List Char) (state : HttpState),
      (∀ l, cupsdFindBest tbl path state = some l →
        l ∈ tbl ∧ locMatch (stripPPD path) (limits state) l = true ∧
        ∀ l2 ∈ tbl, locMatch (stripPPD path) (limits state) l2 = true →
          l2.location.length ≤ l.location.length) ∧
      ((∃ l ∈ tbl, locMatch (stripPPD path) (limits state) l = true) →
        cupsdFindBest tbl path state ≠ none) ∧
      (∀ l1 l2, tbl = [l1, l2] →
        l1.location.length < l2.location.length →
        prefCmpOk (stripPPD path) l1 = true → l1.location.head? = some '/' →
        prefCmpOk (stripPPD path) l2 = true → l2.location.head? = some '/' →
        ((cupsdFindBest tbl path state = some l2 ↔ limits state &&& l2.limit ≠ 0) ∧
         (limits state &&& l2.limit = 0 → limits state &&& l1.limit ≠ 0 →
          cupsdFindBest tbl path state = some l1))) := by
  intro tbl path state
  obtain ⟨ha, _, hm⟩ := findLoop_inv (stripPPD path) (limits state) tbl none
  have hsound : ∀ l, cupsdFindBest tbl path state = some l →
      l ∈ tbl ∧ locMatch (stripPPD path) (limits state) l = true ∧
      ∀ l2 ∈ tbl, locMatch (stripPPD path) (limits state) l2 = true →
        l2.location.length ≤ l.location.length := by
    intro l hsome
    rcases ha with ha | ⟨l3, hl3, hmem, hmat⟩
    · rw [cupsdFindBest] at hsome; rw [hsome] at ha; cases ha
    · rw [cupsdFindBest] at hsome
      rw [hsome] at hl3
      injection hl3 with he
      subst he
      refine ⟨hmem, hmat, ?_⟩
      intro l2 hl2 hmat2
      have := hm l2 hl2 hmat2
      rw [hsome] at this
      simpa [bestLen] using this
  have hcomp : (∃ l ∈ tbl, locMatch (stripPPD path) (limits state) l = true) →
      cupsdFindBest tbl path state ≠ none := by
    rintro ⟨l, hmem, hmat⟩ hnone
    have := hm l hmem hmat
    rw [cupsdFindBest] at hnone
    rw [hnone] at this
    simp [bestLen] at this
    exact (List.length_pos.mp (locMatch_pos _ _ _ hmat)) this
  refine ⟨hsound, hcomp, ?_⟩
  intro l1 l2 htbl hlen hp1 hh1 hp2 hh2
  constructor
  · constructor
    · intro hres
      have h := (hsound l2 hres).2.1
      exact ((locMatch_iff _ _ _).mp h).2.2
    · intro hne
      have hm2 : locMatch (stripPPD path) (limits state) l2 = true :=
        (locMatch_iff _ _ _).mpr ⟨hp2, hh2, hne⟩
      have hne2 : cupsdFindBest tbl path state ≠ none := by
        apply hcomp
        exact ⟨l2, by rw [htbl]; simp, hm2⟩
      obtain ⟨l, hl⟩ := Option.ne_none_iff_exists.mp hne2
      obtain ⟨hmem, hmat, hmax⟩ := hsound l hl.symm
      rw [htbl] at hmem
      rcases List.mem_pair.mp hmem with rfl | rfl
      · have := hmax l2 (by rw [htbl]; simp) hm2
        omega
      · exact hl.symm
  · intro hz hne1
    have hm1 : locMatch (stripPPD path) (limits state) l1 = true :=
      (locMatch_iff _ _ _).mpr ⟨hp1, hh1, hne1⟩
    have hne2 : cupsdFindBest tbl path state ≠ none := by
      apply hcomp
      exact ⟨l1, by rw [htbl]; simp, hm1⟩
    obtain ⟨l, hl⟩ := Option.ne_none_iff_exists.mp hne2
    obtain ⟨hmem, hmat, _⟩ := hsound l hl.symm
    rw [htbl] at hmem
    rcases List.mem_pair.mp hmem with rfl | rfl
    · exact hl.symm
    · have := ((locMatch_iff _ _ _).mp hmat).2.2
      exact absurd hz this

theorem lookupMD5_some_iff (u g : List Char) :
    ∀ (l : List MD5Rec),
      (lookupMD5 u (some g) l).isSome = true ↔
        ∃ r ∈ l, r.user = u ∧ r.group = g := by
  intro l
  induction l with
  | nil => simp [lookupMD5]
  | cons r rest ih =>
      by_cases hc : r.user = u ∧ md5GroupMatches (some g) r.group = true
      · rw [lookupMD5, if_pos hc]
        simp only [Option.isSome_some, true_iff]
        refine ⟨r, List.mem_cons_self _ _, hc.1, ?_⟩
        have := hc.2
        rw [md5GroupMatches, decide_eq_true_eq] at this
        exact this.symm
      · rw [lookupMD5, if_neg hc, ih]
        constructor
        · rintro ⟨r2, hmem, hu, hg⟩
          exact ⟨r2, List.mem_cons_of_mem _ hmem, hu, hg⟩
        · rintro ⟨r2, hmem, hu, hg⟩
          rcases List.mem_cons.mp hmem with rfl | hmem2
          · exact absurd ⟨hu, by rw [md5GroupMatches, decide_eq_true_eq]
                                 exact hg.symm⟩ hc
          · exact ⟨r2, hmem2, hu, hg⟩

/-- C6: cupsdCheckGroup accepts exactly when the digest password file has
a (user, group) record - even when the OS group is absent or lacks the
user - or the user appears case-insensitively in the member list of the
OS group, or a passwd entry was supplied whose primary gid equals the gid
of the existing OS group. -/
theorem checkGroup_tri_source :
    ∀ (env : Env) (u : List Char) (pw : Option PasswdRec) (g : List Char),
      cupsdCheckGroup env u pw g = true ↔
        ((∃ r ∈ env.passwdMD5, r.user = u ∧ r.group = g) ∨
         (∃ gr, env.getgrnam g = some gr ∧ ∃ m ∈ gr.gr_mem, strCaseEq u m = true) ∨
         (∃ gr p, env.getgrnam g = some gr ∧ pw = some p ∧ gr.gr_gid = p.pw_gid)) := by
  intro env u pw g
  cases hgr : env.getgrnam g with
  | none =>
      simp only [cupsdCheckGroup, hgr]
      rw [cupsdGetMD5Passwd, lookupMD5_some_iff]
      constructor
      · intro h; exact Or.inl h
      · rintro (h | ⟨gr, hgr2, _⟩ | ⟨gr, p, hgr2, _⟩)
        · exact h
        · cases hgr2
        · cases hgr2
  | some gr =>
      simp only [cupsdCheckGroup, hgr]
      by_cases hmem : (gr.gr_mem.any fun m => strCaseEq u m) = true
      · rw [if_pos hmem]
        simp only [true_iff]
        exact Or.inr (Or.inl ⟨gr, rfl, List.any_eq_true.mp hmem⟩)
      · rw [if_neg hmem]
        by_cases hgid : (match pw with
                         | some p => decide (gr.gr_gid = p.pw_gid)
                         | none => false) = true
        · rw [if_pos hgid]
          simp only [true_iff]
          refine Or.inr (Or.inr ?_)
          cases pw with
          | none => simp at hgid
          | some p =>
              rw [decide_eq_true_eq] at hgid
              exact ⟨gr, p, rfl, rfl, hgid⟩
        · rw [if_neg hgid]
          rw [cupsdGetMD5Passwd, lookupMD5_some_iff]
          constructor
          · intro h; exact Or.inl h
          · rintro (h | ⟨gr2, hgr2, m, hmm, hsc⟩ | ⟨gr2, p, hgr2, hpw, hgid2⟩)
            · exact h
            · injection hgr2 with he
              subst he
              exact absurd (List.any_eq_true.mpr ⟨m, hmm, hsc⟩) hmem
            · injection hgr2 with he
              subst he
              subst hpw
              exact absurd (by rw [decide_eq_true_eq]; exact hgid2) hgid

theorem atOwner_ne_system : strCaseEq atOwnerS atSystemS = false := by decide

theorem atOwner_head : atOwnerS.head? = some '@' := by decide

theorem atOwner_drop : atOwnerS.drop 1 = ownerGroupS := by decide

theorem atOwner_tail : atOwnerS.tail = ownerGroupS := by decide

theorem postVerify_group_nonbasic (env : Env) (best : Location)
    (username : List Char) (owner : Option (List Char)) (pw : Option PasswdRec)
    (hl : best.level = .AUTH_GROUP) (ht : best.type ≠ .AUTH_BASIC) :
    postVerify env best username owner pw = HTTP_OK := by
  unfold postVerify
  by_cases hroot : username = rootS
  · rw [if_pos hroot]
  · rw [if_neg hroot, if_neg (by rw [hl]; intro h; cases h), if_neg ht]

/-- C1: for a request governed by a Location whose host filter yields Deny,
satisfy All forces FORBIDDEN, for every environment and credential oracle
(so credential verification is never consulted); satisfy Any together with
credentials that verify and a principal check that passes yields OK. -/
theorem satisfy_semantics (env : Env) (con : Client) (owner : Option (List Char))
    (best : Location) (hb : con.best = some best)
    (hd : hostAuth env best (normAddress con.hostaddr) con.hostname = .AUTH_DENY) :
    (best.satisfy = .AUTH_SATISFY_ALL →
      cupsdIsAuthorized env con owner = HTTP_FORBIDDEN) ∧
    (∀ pw, best.satisfy = .AUTH_SATISFY_ANY →
      ¬(HTTP_ENCRYPT_REQUIRED ≤ best.encryption ∧ con.tls = false) →
      con.username ≠ [] →
      con.password ≠ [] →
      checkPassword env con best = some pw →
      postVerify env best con.username owner pw = HTTP_OK →
      cupsdIsAuthorized env con owner = HTTP_OK) := by
  constructor
  · intro hsat
    rw [isAuthorized_some env con owner best hb]
    unfold authorizedBest
    rw [if_pos ⟨hd, hsat⟩]
  · intro pw hsat henc hu hp hcp hpost
    rw [isAuthorized_some env con owner best hb]
    have hns : ¬(hostAuth env best (normAddress con.hostaddr) con.hostname =
        .AUTH_DENY ∧ best.satisfy = .AUTH_SATISFY_ALL) := by
      rintro ⟨_, h⟩
      rw [hsat] at h
      cases h
    unfold authorizedBest
    rw [if_neg hns, if_neg henc]
    by_cases h3 : best.level = .AUTH_ANON ∨ (best.type = .AUTH_NONE ∧ best.names = [])
    · rw [if_pos h3]
    · rw [if_neg h3]
      by_cases h4 : best.type = .AUTH_NONE ∧ best.limit = AUTH_LIMIT_IPP ∧
          con.requestingUserName = true
      · rw [if_pos h4]
      · rw [if_neg h4, if_neg hu]
        have hnl : ¬(strCaseEq con.hostname localhostS = true ∧
            con.authHeader.take 5 = localS) := by
          rintro ⟨hl, _⟩
          rw [hostAuth_deny_not_localhost env best _ _ hd] at hl
          cases hl
        rw [if_neg hnl, if_neg hp, hcp]
        exact hpost

/-- C4: a Digest request that reaches the credential step (past the host
filter, encryption, anonymous and empty-username steps, and not using the
localhost Local-certificate bypass) with a missing nonce subfield or a
nonce that is not byte-equal to the peer hostname is UNAUTHORIZED. -/
theorem digest_nonce_binding (env : Env) (con : Client) (owner : Option (List Char))
    (best : Location) (hb : con.best = some best)
    (heff : effectiveType env best = .AUTH_DIGEST)
    (h1 : ¬(hostAuth env best (normAddress con.hostaddr) con.hostname = .AUTH_DENY ∧
            best.satisfy = .AUTH_SATISFY_ALL))
    (h2 : ¬(HTTP_ENCRYPT_REQUIRED ≤ best.encryption ∧ con.tls = false))
    (h3a : best.level ≠ .AUTH_ANON)
    (h3b : ¬(best.type = .AUTH_NONE ∧ best.names = []))
    (h4 : ¬(best.type = .AUTH_NONE ∧ best.limit = AUTH_LIMIT_IPP ∧
            con.requestingUserName = true))
    (h5 : con.username ≠ [])
    (h6 : ¬(strCaseEq con.hostname localhostS = true ∧ con.authHeader.take 5 = localS))
    (hnonce : con.nonce = none ∨ ∃ s, con.nonce = some s ∧ s ≠ con.hostname) :
    cupsdIsAuthorized env con owner = HTTP_UNAUTHORIZED := by
  rw [isAuthorized_some env con owner best hb]
  rw [authorizedBest_password env con best owner h1 h2
        (by rintro (h | h); exact h3a h; exact h3b h) h4 h5 h6]
  split
  · rfl
  · have hcp : checkPassword env con best = none := by
      unfold checkPassword
      rw [heff]
      rcases hnonce with hn | ⟨s, hs, hne⟩
      · rw [hn]
      · rw [hs]
        have hns : con.hostname ≠ s := fun h => hne h.symm
        exact if_pos hns
    rw [hcp]

/-- C5 (amended): with no governing Location, the result is OK exactly
when the peer hostname is byte-for-byte equal (case-sensitively, unlike
the claim's case-insensitive reading) to "localhost" or to the configured
server name, and FORBIDDEN otherwise. -/
theorem no_location_fallback (env : Env) (con : Client) (owner : Option (List Char))
    (hb : con.best = none) :
    (cupsdIsAuthorized env con owner = HTTP_OK ↔
      (con.hostname = localhostS ∨ con.hostname = env.serverName)) ∧
    (¬(con.hostname = localhostS ∨ con.hostname = env.serverName) →
      cupsdIsAuthorized env con owner = HTTP_FORBIDDEN) := by
  rw [isAuthorized_none env con owner hb]
  unfold authorizedNoBest
  by_cases h : con.hostname = localhostS ∨ con.hostname = env.serverName
  · rw [if_pos h]
    exact ⟨by simp [h], fun hc => absurd h hc⟩
  · rw [if_neg h]
    constructor
    · constructor
      · intro hf; cases hf
      · intro hh; exact absurd hh h
    · intro _; rfl

/-- C7 (amended): for an authenticated non-root request at level User with
principals exactly [@OWNER]: with no owner supplied the result is
UNAUTHORIZED provided the user is not resolved by cupsdCheckGroup as a
member of a group literally named OWNER (the amendment the fall-through
counterexample forces); with the owner equal to the username the result
is OK. -/
theorem owner_principal (env : Env) (con : Client) (owner : Option (List Char))
    (best : Location) (pw : Option PasswdRec) (hb : con.best = some best)
    (hlev : best.level = .AUTH_USER)
    (hnames : best.names = [atOwnerS])
    (hroot : con.username ≠ rootS)
    (h1 : ¬(hostAuth env best (normAddress con.hostaddr) con.hostname = .AUTH_DENY ∧
            best.satisfy = .AUTH_SATISFY_ALL))
    (h2 : ¬(HTTP_ENCRYPT_REQUIRED ≤ best.encryption ∧ con.tls = false))
    (h4 : ¬(best.type = .AUTH_NONE ∧ best.limit = AUTH_LIMIT_IPP ∧
            con.requestingUserName = true))
    (h5 : con.username ≠ [])
    (h6 : ¬(strCaseEq con.hostname localhostS = true ∧ con.authHeader.take 5 = localS))
    (h7 : con.password ≠ [])
    (hcp : checkPassword env con best = some pw) :
    (owner = none → cupsdCheckGroup env con.username pw ownerGroupS = false →
      cupsdIsAuthorized env con owner = HTTP_UNAUTHORIZED) ∧
    (owner = some con.username → cupsdIsAuthorized env con owner = HTTP_OK) := by
  have h3 : ¬(best.level = .AUTH_ANON ∨ (best.type = .AUTH_NONE ∧ best.names = [])) := by
    rintro (h | ⟨_, h⟩)
    · rw [hlev] at h; cases h
    · rw [hnames] at h; cases h
  have hred : cupsdIsAuthorized env con owner =
      (if con.password = [] then HTTP_UNAUTHORIZED
       else
         match checkPassword env con best with
         | none => HTTP_UNAUTHORIZED
         | some pw => postVerify env best con.username owner pw) := by
    rw [isAuthorized_some env con owner best hb]
    exact authorizedBest_password env con best owner h1 h2 h3 h4 h5 h6
  rw [hred, if_neg h7, hcp]
  constructor
  · intro hnone hcg
    subst hnone
    show postVerify env best con.username none pw = HTTP_UNAUTHORIZED
    unfold postVerify
    rw [if_neg hroot, if_pos hlev, if_neg (by rw [hnames]; intro h; cases h)]
    have hacc : authUserAccept env con.username pw none atOwnerS =
        cupsdCheckGroup env con.username pw ownerGroupS := by
      unfold authUserAccept
      simp [atOwner_ne_system, atOwner_head, atOwner_tail]
    rw [hnames]
    simp [hacc, hcg]
  · intro howner
    subst howner
    show postVerify env best con.username (some con.username) pw = HTTP_OK
    unfold postVerify
    rw [if_neg hroot, if_pos hlev, if_neg (by rw [hnames]; intro h; cases h)]
    have hacc : authUserAccept env con.username pw (some con.username) atOwnerS = true := by
      unfold authUserAccept
      simp [strCaseEq_self]
    rw [hnames]
    simp [hacc]

/-- C8: in the level-User principal scan, an @OWNER token that the owner
comparison does not accept (no owner, or owner differing from the
username) falls through to the generic @group branch and resolves as
membership in a group literally named OWNER, so such a member is accepted
with no owner supplied. -/
theorem owner_group_fallthrough (env : Env) (con : Client)
    (owner : Option (List Char)) (best : Location) (pw : Option PasswdRec)
    (hb : con.best = some best)
    (hlev : best.level = .AUTH_USER)
    (hmem : atOwnerS ∈ best.names)
    (h1 : ¬(hostAuth env best (normAddress con.hostaddr) con.hostname = .AUTH_DENY ∧
            best.satisfy = .AUTH_SATISFY_ALL))
    (h2 : ¬(HTTP_ENCRYPT_REQUIRED ≤ best.encryption ∧ con.tls = false))
    (h4 : ¬(best.type = .AUTH_NONE ∧ best.limit = AUTH_LIMIT_IPP ∧
            con.requestingUserName = true))
    (h5 : con.username ≠ [])
    (h6 : ¬(strCaseEq con.hostname localhostS = true ∧ con.authHeader.take 5 = localS))
    (h7 : con.password ≠ [])
    (hcp : checkPassword env con best = some pw)
    (howner : owner = none ∨ ∃ o, owner = some o ∧ strCaseEq con.username o = false)
    (hcg : cupsdCheckGroup env con.username pw ownerGroupS = true) :
    cupsdIsAuthorized env con owner = HTTP_OK := by
  have h3 : ¬(best.level = .AUTH_ANON ∨ (best.type = .AUTH_NONE ∧ best.names = [])) := by
    rintro (h | ⟨_, h⟩)
    · rw [hlev] at h; cases h
    · exact (List.ne_nil_of_mem hmem) h
  rw [isAuthorized_some env con owner best hb,
      authorizedBest_password env con best owner h1 h2 h3 h4 h5 h6,
      if_neg h7, hcp]
  show postVerify env best con.username owner pw = HTTP_OK
  have hacc : authUserAccept env con.username pw owner atOwnerS = true := by
    rcases howner with rfl | ⟨o, rfl, ho⟩
    · unfold authUserAccept
      simp [atOwner_ne_system, atOwner_head, atOwner_tail, hcg]
    · unfold authUserAccept
      simp [atOwner_ne_system, atOwner_head, atOwner_tail, hcg, ho]
  have hany : best.names.any (authUserAccept env con.username pw owner) = true :=
    List.any_eq_true.mpr ⟨atOwnerS, hmem, hacc⟩
  unfold postVerify
  by_cases hroot : con.username = rootS
  · rw [if_pos hroot]
  · rw [if_neg hroot, if_pos hlev]
    by_cases hn : best.names = []
    · rw [if_pos hn]
    · rw [if_neg hn, if_pos hany]

/-- C10: for a request governed by a Location at level Group whose
effective scheme is not Basic (Digest, BasicDigest, or None with a
non-Basic default), once the pre-checks pass and the credentials verify
(or the localhost Local-certificate bypass applies), the result is OK for
every environment: the group scan runs only when the location type is
exactly Basic. -/
theorem group_level_non_basic (env : Env) (con : Client)
    (owner : Option (List Char)) (best : Location)
    (hb : con.best = some best)
    (hlev : best.level = .AUTH_GROUP)
    (ht : best.type ≠ .AUTH_BASIC)
    (_hdt : best.type = .AUTH_NONE → env.defaultAuthType ≠ .AUTH_BASIC)
    (h1 : ¬(hostAuth env best (normAddress con.hostaddr) con.hostname = .AUTH_DENY ∧
            best.satisfy = .AUTH_SATISFY_ALL))
    (h2 : ¬(HTTP_ENCRYPT_REQUIRED ≤ best.encryption ∧ con.tls = false))
    (h5 : con.username ≠ [])
    (hcred : (strCaseEq con.hostname localhostS = true ∧ con.authHeader.take 5 = localS) ∨
             (con.password ≠ [] ∧ (checkPassword env con best).isSome = true)) :
    cupsdIsAuthorized env con owner = HTTP_OK := by
  rw [isAuthorized_some env con owner best hb]
  unfold authorizedBest
  rw [if_neg h1, if_neg h2]
  by_cases h3 : best.level = .AUTH_ANON ∨ (best.type = .AUTH_NONE ∧ best.names = [])
  · rw [if_pos h3]
  · rw [if_neg h3]
    by_cases hipp : best.type = .AUTH_NONE ∧ best.limit = AUTH_LIMIT_IPP ∧
        con.requestingUserName = true
    · rw [if_pos hipp]
    · rw [if_neg hipp, if_neg h5]
      by_cases hbp : strCaseEq con.hostname localhostS = true ∧
          con.authHeader.take 5 = localS
      · rw [if_pos hbp]
        exact postVerify_group_nonbasic env best con.username owner _ hlev ht
      · rw [if_neg hbp]
        rcases hcred with hbp2 | ⟨hp, hsome⟩
        · exact absurd hbp2 hbp
        · rw [if_neg hp]
          obtain ⟨pw, hcp⟩ := Option.isSome_iff_exists.mp hsome
          rw [hcp]
          exact postVerify_group_nonbasic env best con.username owner pw hlev ht

theorem ppd_strip_findBest :
    (∀ (tbl : List Location) (p : List Char) (state : HttpState),
      isQueuePath p = true → hasPpdSuffix p = true →
      hasPpdSuffix (stripPPD p) = false →
      cupsdFindBest tbl p state = cupsdFindBest tbl (stripPPD p) state) := by
  intro tbl p state hq hs hns
  have hstrip : stripPPD (stripPPD p) = stripPPD p := by
    conv_lhs => rw [stripPPD]
    rw [hns]
    simp
  unfold cupsdFindBest
  rw [hstrip]

/-- C2: with allow list [10.0.0.0/8] and deny list [10.1.0.0/16] and the
non-localhost peer 10.1.2.3, the host filter yields Allow under Order
Deny,Allow (the spec's AllowThenDeny) and Deny under Order Allow,Deny
(DenyThenAllow). -/
theorem order_mode_precedence :
    strCaseEq hostC2 localhostS = false ∧
    hostAuth envBase locC2ad addrC2 hostC2 = .AUTH_ALLOW ∧
    hostAuth envBase locC2da addrC2 hostC2 = .AUTH_DENY := by
  decide

/-- C5 counterexample: at peer hostname "Localhost" with no governing
Location, the code returns FORBIDDEN although the hostname equals
"localhost" up to letter case, so the claim's case-insensitive reading of
the comparison is false at this input. -/
theorem no_location_fallback_cex :
    ¬(cupsdIsAuthorized envBase conC5 none = HTTP_OK ↔
      (strCaseEq conC5.hostname localhostS = true ∨
       strCaseEq conC5.hostname envBase.serverName = true)) := by
  decide

/-- C5 witness. -/
theorem no_location_fallback_witness :
    cupsdIsAuthorized envBase conC5w none = HTTP_OK :=
  (no_location_fallback envBase conC5w none rfl).1.mpr (Or.inl rfl)

/-- C7 counterexample: a level-User location with principals [@OWNER], an
authenticated non-root user, no owner supplied - yet the result is OK,
because the @OWNER token falls through to a group named OWNER that lists
the user. -/
theorem owner_principal_cex :
    bestC7.level = .AUTH_USER ∧ bestC7.names = [atOwnerS] ∧
    conC7.username ≠ rootS ∧ conC7.best = some bestC7 ∧
    cupsdIsAuthorized envC7 conC7 none = HTTP_OK := by
  decide

/-- C7 witness. -/
theorem owner_principal_witness :
    cupsdIsAuthorized envC7w conC7 none = HTTP_UNAUTHORIZED :=
  (owner_principal envC7w conC7 none bestC7 none rfl (by decide) (by decide)
    (by decide) (by decide) (by decide) (by decide) (by decide) (by decide)
    (by decide) (by decide)).1 rfl (by decide)

/-- C9 counterexample: "/printers/x.ppd.ppd" is a queue path ending in
".ppd", but cupsdFindBest does not behave on it as on the same path with
the four-byte suffix removed: the stripped path is stripped a second
time. -/
theorem ppd_strip_cex :
    isQueuePath pathC9x = true ∧ hasPpdSuffix pathC9x = true ∧
    cupsdFindBest tblC9 pathC9x .HTTP_GET ≠
      cupsdFindBest tblC9 (pathC9x.take (pathC9x.length - 4)) .HTTP_GET := by
  decide

/-- C9 (amended): for a queue path ending in ".ppd", cupsdFindBest behaves
exactly as on the path with the suffix removed provided the stripped path
does not itself end in ".ppd" (the restriction the double-suffix
counterexample forces); prefix comparison is then case-insensitive, so
GET /printers/FOO.ppd selects the location /printers/foo; for a path not
under /printers/ or /classes/ nothing is stripped (/admin/foo.ppd matches
the location /admin/foo.ppd as is) and comparison is case-sensitive
(/Admin/x does not match the location /admin/). -/
theorem ppd_strip :
    (∀ (tbl : List Location) (p : List Char) (state : HttpState),
      isQueuePath p = true → hasPpdSuffix p = true →
      hasPpdSuffix (stripPPD p) = false →
      cupsdFindBest tbl p state = cupsdFindBest tbl (stripPPD p) state) ∧
    cupsdFindBest [locC9foo] ("/printers/FOO.ppd".data) .HTTP_GET = some locC9foo ∧
    cupsdFindBest [locC9adminPpd] ("/admin/foo.ppd".data) .HTTP_GET =
      some locC9adminPpd ∧
    cupsdFindBest [locC9admin] ("/Admin/x".data) .HTTP_GET = none := by
  refine ⟨ppd_strip_findBest, by decide, by decide, by decide⟩

/-- C9 witness. -/
theorem ppd_strip_witness :
    cupsdFindBest tblC9w pathC9w .HTTP_GET =
      cupsdFindBest tblC9w (stripPPD pathC9w) .HTTP_GET :=
  ppd_strip.1 tblC9w pathC9w .HTTP_GET (by decide) (by decide) (by decide)

/-- C1 witness. -/
theorem satisfy_semantics_witness :
    cupsdIsAuthorized envC1 conC1 none = HTTP_OK :=
  (satisfy_semantics envC1 conC1 none bestC1 rfl (by decide)).2 none (by decide)
    (by decide) (by decide) (by decide) (by decide) (by decide)

/-- C3 witness. -/
theorem findBest_longest_match_witness :
    cupsdFindBest tblC3 pathC3 .HTTP_GET = some locC3b :=
  ((findBest_longest_match tblC3 pathC3 .HTTP_GET).2.2 locC3a locC3b rfl
    (by decide) (by decide) (by decide) (by decide) (by decide)).1.mpr
    (by decide)

/-- C4 witness. -/
theorem digest_nonce_binding_witness :
    cupsdIsAuthorized envBase conC4 none = HTTP_UNAUTHORIZED :=
  digest_nonce_binding envBase conC4 none bestC4 rfl (by decide) (by decide)
    (by decide) (by decide) (by decide) (by decide) (by decide) (by decide)
    (Or.inr ⟨("evil.example.com".data), rfl, by decide⟩)

/-- C6 witness: carol appears only in the digest file record
(carol, admins), there is no OS group admins, yet @admins is satisfied. -/
theorem checkGroup_tri_source_witness :
    cupsdCheckGroup envC6 ("carol".data) none ("admins".data) = true :=
  (checkGroup_tri_source envC6 ("carol".data) none ("admins".data)).mpr
    (Or.inl (by decide))

/-- C8 witness. -/
theorem owner_group_fallthrough_witness :
    cupsdIsAuthorized envC8 conC8 (some ("bob".data)) = HTTP_OK :=
  owner_group_fallthrough envC8 conC8 (some ("bob".data)) bestC8 none rfl
    (by decide) (by decide) (by decide) (by decide) (by decide) (by decide)
    (by decide) (by decide) (by decide)
    (Or.inr ⟨("bob".data), rfl, by decide⟩) (by decide)

/-- C10 witness: a Digest request at a Group-level location whose response
matches, in an environment whose group databases are empty. -/
theorem group_level_non_basic_witness :
    cupsdIsAuthorized envC10 conC10 none = HTTP_OK :=
  group_level_non_basic envC10 conC10 none bestC10 rfl (by decide) (by decide)
    (by decide) (by decide) (by decide) (by decide)
    (Or.inr ⟨by decide, by decide⟩)
